import Mathlib

set_option maxRecDepth 20000
set_option maxHeartbeats 2000000

/-!
Shallow embedding of the odsfzf open-directory scanner (src/odsfzf.py).

The embedding covers the recursive crawler `iterate_file_system`, the name
canonicalisation helpers `get_season_listing_from_name` and
`get_pseudo_float_string`, and the aggregation / selection logic of
`send_fs_to_fzf`.  External collaborators (the HTTP transport, the HTML
anchor scanner, the anitopy name parser and the fzf picker) are modelled at
their interface boundary: the network is an environment function from a URL
to the ordered list of hrefs extracted from its index page, and anitopy is a
function from an href to an attribute record.

Machine floats of the source enter only through `float(...)` applied to
decimal digit strings of the shape `[0-9]+(\.[0-9]+)?`; all such values are
non-negative and exactly representable, so they are modelled as exact
decimals (`PyFloat`), and the Python format `%02.0f` is modelled by
round-half-to-even.  String manipulation is implemented structurally over
character lists so that every definition evaluates inside the kernel.
-/

/- ## Python string primitives used by the source -/

/-- Drop leading characters that belong to `bad` (helper for Python strip). -/
def stripCharsLeft (bad : List Char) : List Char → List Char
  | [] => []
  | c :: rest => if bad.contains c then stripCharsLeft bad rest else c :: rest

/-- Python `str.strip(chars)`: remove leading and trailing characters of `bad`. -/
def pyStrip (bad : List Char) (s : String) : String :=
  String.mk ((stripCharsLeft bad (stripCharsLeft bad s.data).reverse).reverse)

/-- Python `name.strip(". ")` as used in `send_fs_to_fzf`. -/
def pyStripDotSpace (s : String) : String := pyStrip ['.', ' '] s

/-- Python `str.strip()` with no argument: strip ASCII whitespace. -/
def pyStripWs (s : String) : String :=
  pyStrip [' ', '\t', '\n', '\r', '\x0b', '\x0c'] s

/-- Python `str.endswith(suffix)`. -/
def pyEndsWith (s suffix : String) : Bool := suffix.data.isSuffixOf s.data

/-- Python `str.startswith(pre)`. -/
def pyStartsWith (s pre : String) : Bool := pre.data.isPrefixOf s.data

/-- Value of an ASCII hex digit, used by the percent decoder. -/
def hexDigitVal (c : Char) : Option Nat :=
  if '0' ≤ c ∧ c ≤ '9' then some (c.toNat - '0'.toNat)
  else if 'a' ≤ c ∧ c ≤ 'f' then some (c.toNat - 'a'.toNat + 10)
  else if 'A' ≤ c ∧ c ≤ 'F' then some (c.toNat - 'A'.toNat + 10)
  else none

/-- Percent decoding on code points; model of `urllib.parse.unquote` for the
ASCII inputs that occur here (no multi-byte UTF-8 sequences). -/
def unquoteAux : List Char → List Char
  | '%' :: h1 :: h2 :: rest =>
    match hexDigitVal h1, hexDigitVal h2 with
    | some a, some b => Char.ofNat (16 * a + b) :: unquoteAux rest
    | _, _ => '%' :: unquoteAux (h1 :: h2 :: rest)
  | c :: rest => c :: unquoteAux rest
  | [] => []

/-- Model of `urllib.parse.unquote`. -/
def unquote (s : String) : String := String.mk (unquoteAux s.data)

/-- The value of a decimal digit. -/
def digitVal (c : Char) : Option Nat :=
  if '0' ≤ c ∧ c ≤ '9' then some (c.toNat - '0'.toNat) else none

/-- The natural number denoted by a digit string (none on a non-digit). -/
def digitsToNatAux : List Char → Nat → Option Nat
  | [], acc => some acc
  | c :: t, acc =>
    match digitVal c with
    | some d => digitsToNatAux t (acc * 10 + d)
    | none => none

/-- The natural number denoted by a digit list. -/
def digitsToNat (l : List Char) : Option Nat := digitsToNatAux l 0

/-- Split a character list on every non-overlapping occurrence of `sep`,
scanning left to right (the fuel is an upper bound on the number of steps and
is never exhausted when it starts at the length of the list plus one). -/
def listSplitAux (sep : List Char) : Nat → List Char → List Char → List (List Char)
  | 0, l, acc => [acc.reverse ++ l]
  | fuel + 1, l, acc =>
    if sep.isPrefixOf l ∧ sep ≠ [] then
      acc.reverse :: listSplitAux sep fuel (l.drop sep.length) []
    else
      match l with
      | [] => [acc.reverse]
      | c :: t => listSplitAux sep fuel t (c :: acc)

/-- Model of `str.split(sep)` / Lean `String.splitOn` on character lists. -/
def listSplit (sep l : List Char) : List (List Char) :=
  listSplitAux sep (l.length + 1) l []

/-- The exact value of a Python float produced by `float(...)` on a decimal
digit string `[0-9]+(\.[0-9]+)?` (the only shapes reaching `float` in the
source): an integer part together with `frac_len` fractional digits denoting
`frac_num / 10 ^ frac_len`.  All such values are non-negative and exactly
representable, so this captures the float exactly. -/
structure PyFloat where
  int_part : Nat
  frac_num : Nat
  frac_len : Nat
deriving DecidableEq, Inhabited

/-- Model of Python `float(...)` on the decimal strings of the source. -/
def parseDecimal (s : String) : PyFloat :=
  match listSplit ['.'] s.data with
  | [w] => ⟨(digitsToNat w).getD 0, 0, 0⟩
  | [w, f] => ⟨(digitsToNat w).getD 0, (digitsToNat f).getD 0, f.length⟩
  | _ => ⟨0, 0, 0⟩

/-- Python `float.is_integer()`: the fractional part denotes zero. -/
def pyFloatIsInteger (x : PyFloat) : Bool := x.frac_num == 0

/-- Round half to even, the rounding Python float formatting applies at
precision 0 (the inputs here are non-negative): compare the fractional part
with one half and round ties to the even integer. -/
def roundHalfEven (x : PyFloat) : Nat :=
  let half := 5 * 10 ^ (x.frac_len - 1)
  if x.frac_num = half then (if x.int_part % 2 = 0 then x.int_part else x.int_part + 1)
  else if x.frac_num < half then x.int_part else x.int_part + 1

/-- Python integer formatting with format spec `02d` (and the final shape of
`02.0f` once the value has been rounded to an integer): zero-pad to width 2
(the formatted values of the source are non-negative). -/
def pad2 (n : Nat) : String :=
  if n < 10 then "0" ++ toString n else toString n

/-- Model of `get_pseudo_float_string` (src/odsfzf.py line 65):
an f-string selecting the format spec `02d` for whole values and `02.0f`
otherwise.
A whole value is printed as a zero-padded integer; a non-integer value is
formatted with `%02.0f`, which rounds half to even to an integer and pads. -/
def get_pseudo_float_string (x : PyFloat) : String :=
  if pyFloatIsInteger x then pad2 x.int_part else pad2 (roundHalfEven x)

/- ## A small backtracking regex engine

The SEASON_LISTING pattern is executed by a generic backtracking matcher whose
enumeration order follows the Python `re` semantics: alternatives are tried
left to right, greedy quantifiers prefer longer matches, and the overall
match is the first success in that order at the leftmost possible start.
`fuel` bounds the recursion depth; every quantified subpattern of the patterns
below consumes at least one character per iteration, so a fuel linear in the
subject length is sufficient and the bound is never hit on the inputs used. -/

inductive Rx where
  | eps
  | chars (cs : List Char)
  | notAtLineStart
  | wordBoundary
  | seq (a b : Rx)
  | alt (a b : Rx)
  | opt (a : Rx)
  | star (a : Rx)
  | plus (a : Rx)
  | group (n : Nat) (a : Rx)

/-- Captured group spans: (group id, start, end). -/
abbrev RxCaps := List (Nat × Nat × Nat)

/-- Record the span of group `n`, overwriting a previous span. -/
def setCap (caps : RxCaps) (n st en : Nat) : RxCaps :=
  (n, st, en) :: caps.filter (fun t => t.1 ≠ n)

/-- Python `\w` on the ASCII inputs used here. -/
def wordCharB (c : Char) : Bool := c.isAlphanum || c == '_'

/-- Whether position `i` of `s` holds a word character. -/
def wordAt (s : List Char) (i : Nat) : Bool :=
  match s[i]? with
  | some c => wordCharB c
  | none => false

/-- All ways the pattern can match starting at position `i`, as pairs of end
position and captures, in backtracking preference order. -/
def reMatches (s : List Char) : Nat → Rx → Nat → RxCaps → List (Nat × RxCaps)
  | 0, _, _, _ => []
  | _ + 1, .eps, i, caps => [(i, caps)]
  | _ + 1, .chars cs, i, caps =>
    match s[i]? with
    | some c => if cs.contains c then [(i + 1, caps)] else []
    | none => []
  | _ + 1, .notAtLineStart, i, caps =>
    if i = 0 then [] else if s[i - 1]? = some '\n' then [] else [(i, caps)]
  | _ + 1, .wordBoundary, i, caps =>
    if (if i = 0 then false else wordAt s (i - 1)) ≠ wordAt s i then [(i, caps)] else []
  | fuel + 1, .seq a b, i, caps =>
    (reMatches s fuel a i caps).flatMap (fun p => reMatches s fuel b p.1 p.2)
  | fuel + 1, .alt a b, i, caps =>
    reMatches s fuel a i caps ++ reMatches s fuel b i caps
  | fuel + 1, .opt a, i, caps =>
    reMatches s fuel a i caps ++ [(i, caps)]
  | fuel + 1, .star a, i, caps =>
    ((reMatches s fuel a i caps).flatMap (fun p => reMatches s fuel (.star a) p.1 p.2)) ++ [(i, caps)]
  | fuel + 1, .plus a, i, caps =>
    (reMatches s fuel a i caps).flatMap (fun p => reMatches s fuel (.star a) p.1 p.2)
  | fuel + 1, .group n a, i, caps =>
    (reMatches s fuel a i caps).map (fun p => (p.1, setCap p.2 n i p.1))

/-- Fuel that is ample for the fixed patterns of the source. -/
def reFuel (s : List Char) : Nat := 200 + 20 * s.length

/-- Leftmost search from position `i` with `k` start positions left to try. -/
def reSearchFrom (pat : Rx) (s : List Char) : Nat → Nat → Option (Nat × Nat × RxCaps)
  | 0, _ => none
  | k + 1, i =>
    match reMatches s (reFuel s) pat i [] with
    | p :: _ => some (i, p.1, p.2)
    | [] => reSearchFrom pat s k (i + 1)

/-- Model of `pattern.search(s)`: the leftmost match, with its captures. -/
def reSearch (pat : Rx) (s : List Char) : Option (Nat × Nat × RxCaps) :=
  reSearchFrom pat s (s.length + 1) 0

/-- Model of `pattern.sub("", s)` from position `i` on: remove every
non-overlapping match, scanning left to right. -/
def reSubFrom (pat : Rx) (s : List Char) : Nat → Nat → List Char
  | 0, i => s.drop i
  | k + 1, i =>
    match reMatches s (reFuel s) pat i [] with
    | p :: _ =>
      if i < p.1 then reSubFrom pat s k p.1
      else
        match s[i]? with
        | some c => c :: reSubFrom pat s k (i + 1)
        | none => []
    | [] =>
      match s[i]? with
      | some c => c :: reSubFrom pat s k (i + 1)
      | none => []

/-- Model of `pattern.sub("", s)`. -/
def reSubEmpty (pat : Rx) (s : List Char) : List Char :=
  reSubFrom pat s (s.length + 1) 0

/-- One letter under `re.IGNORECASE` (c is given in lower case). -/
def ichar (c : Char) : Rx := .chars [c, c.toUpper]

/-- A literal word under `re.IGNORECASE`. -/
def istr (w : String) : Rx :=
  w.data.foldr (fun c r => Rx.seq (ichar c) r) Rx.eps

/-- The class `[0-9]+`. -/
def rxDigits : Rx := .plus (.chars "0123456789".data)

/-- The class `\s` restricted to the ASCII whitespace it denotes in Python. -/
def rxWsOne : Rx := .chars [' ', '\t', '\n', '\r', '\x0b', '\x0c']

/-- The numeric group `[0-9]+(?:\.[0-9]+)?`. -/
def rxNumber : Rx :=
  .seq rxDigits (.opt (.seq (.chars ['.']) rxDigits))

/-- The compiled SEASON_LISTING pattern (src/odsfzf.py lines 43-51):

`(?!^)(?:\b|\.+)(?:(?:s(?:eason\s+)?)?(?P<season>[0-9]+(?:\.[0-9]+)?))\s*`
`(?:[xe-]|\s+(?:ep(?:isode)?)?)\s*(?P<episode>[0-9]+(?:\.[0-9]+)?)(?:\b|\.+)`

compiled with IGNORECASE and MULTILINE.  Group 1 is `season`, group 2 is
`episode`. -/
def seasonListingRx : Rx :=
  .seq .notAtLineStart
  (.seq (.alt .wordBoundary (.plus (.chars ['.'])))
  (.seq (.opt (.seq (ichar 's') (.opt (.seq (istr "eason") (.plus rxWsOne)))))
  (.seq (.group 1 rxNumber)
  (.seq (.star rxWsOne)
  (.seq (.alt (.chars ['x', 'X', 'e', 'E', '-'])
              (.seq (.plus rxWsOne) (.opt (.seq (istr "ep") (.opt (istr "isode"))))))
  (.seq (.star rxWsOne)
  (.seq (.group 2 rxNumber)
        (.alt .wordBoundary (.plus (.chars ['.']))))))))))

/-- The text captured by group `n`, if the group participated. -/
def capString (s : List Char) (caps : RxCaps) (n : Nat) : Option String :=
  match caps.find? (fun t => t.1 == n) with
  | some (_, st, en) => some (String.mk ((s.drop st).take (en - st)))
  | none => none

/-- Model of `get_season_listing_from_name` (src/odsfzf.py lines 53-62):
search for SEASON_LISTING; when found, return the name with every match
removed and whitespace-stripped, together with the season and episode
captures of the first match; otherwise return the name unchanged. -/
def get_season_listing_from_name (name : String) : String × Option String × Option String :=
  match reSearch seasonListingRx name.data with
  | some (_, _, caps) =>
    (pyStripWs (String.mk (reSubEmpty seasonListingRx name.data)),
      capString name.data caps 1, capString name.data caps 2)
  | none => (name, none, none)

/- ## The prefix pattern RELATIVE_TO_CURRENT_URL_RE

`RELATIVE_TO_CURRENT_URL_RE = re.compile(r"(?:\.+?/)+")` is applied with
`.match(href)`, i.e. anchored at position 0 and truthy as soon as SOME prefix
of the href matches the pattern.  A prefix matches `(?:\.+?/)+` exactly when
the href begins with at least one block of one-or-more dots followed by `/`;
since a single block already suffices, `.match` is truthy exactly when the
href starts with one or more dots immediately followed by `/`.  The two
functions below are this anchored matcher, translated directly. -/

/-- After the first dot: accept on `/`, keep consuming dots, reject otherwise. -/
def relMatchAfterDot : List Char → Bool
  | [] => false
  | c :: rest => if c = '/' then true else if c = '.' then relMatchAfterDot rest else false

/-- The anchored matcher on the character list: the first character must be a
dot, then `relMatchAfterDot` runs. -/
def relMatchList : List Char → Bool
  | [] => false
  | c :: rest => if c = '.' then relMatchAfterDot rest else false

/-- Truthiness of `RELATIVE_TO_CURRENT_URL_RE.match(s)` (src/odsfzf.py
lines 42 and 102). -/
def relative_to_current_url_match (s : String) : Bool :=
  relMatchList s.data

/-- Concatenation of dot-segment blocks: each block is `b` dots then a slash. -/
def dotBlocks (blocks : List Nat) : List Char :=
  (blocks.map (fun b => List.replicate b '.' ++ ['/'])).flatten

/-- An href composed entirely of parent/self path segments: one or more blocks,
each one-or-more dots followed by a slash (hrefs like `../`, `./././`). -/
def entirelyDotSegments (h : String) : Prop :=
  ∃ blocks : List Nat, blocks ≠ [] ∧ (∀ b ∈ blocks, 1 ≤ b) ∧ h.data = dotBlocks blocks

/- ## URL model (interface of yarl as used by the source) -/

/-- Whether the URL string carries a host, i.e. has a `scheme://` part; model
of `yarl.URL(u).host is not None` for the URLs occurring here. -/
def hasHost (u : String) : Bool := (listSplit "://".data u.data).length != 1

/-- Path of a host-less (relative) URL: the string before any query or
fragment; model of `yarl.URL(u).path` for relative URLs. -/
def relPath (u : String) : String :=
  String.mk
    (let nf := (listSplit ['#'] u.data).headD u.data
     (listSplit ['?'] nf).headD nf)

/-- Path component of an absolute URL; model of `yarl.URL(u).path`. -/
def urlPath (u : String) : String :=
  match listSplit "://".data u.data with
  | [_, rest] =>
    match listSplit ['/'] rest with
    | _ :: segs => String.mk ('/' :: List.intercalate ['/'] segs)
    | [] => "/"
  | _ => u

/-- Everything up to and including the final slash of `u` (all of `u` has no
slash: empty result prefix semantics handled by the caller). -/
def upToLastSlash (u : String) : String :=
  String.mk (u.data.reverse.dropWhile (fun c => c ≠ '/')).reverse

/-- Everything after the final slash of `u`; Python
`(u.rsplit("/", 1) or (None,))[-1]` for a string `u` (`rsplit` always returns
a non-empty list, so the `or (None,)` arm is dead). -/
def afterLastSlash (u : String) : String :=
  String.mk (u.data.reverse.takeWhile (fun c => c ≠ '/')).reverse

/-- The `scheme://host` part of an absolute URL. -/
def schemeHost (u : String) : String :=
  match listSplit "://".data u.data with
  | [sch, rest] => String.mk (sch ++ "://".data ++ (listSplit ['/'] rest).headD rest)
  | _ => u

/-- Model of `yarl.URL(base).join(yarl.URL(href)).human_repr()` for the hrefs
occurring here: an absolute href replaces the base, a root-relative href is
resolved against the host, any other href replaces everything after the final
slash of the base. -/
def urlJoin (base href : String) : String :=
  if hasHost href then href
  else if pyStartsWith href "/" then schemeHost base ++ href
  else upToLastSlash base ++ href

/-- Model of `safe_url_join` (src/odsfzf.py lines 69-71):
`url.removesuffix("/") + "/" + path.removeprefix("/")`. -/
def safe_url_join (url path : String) : String :=
  String.mk ((if pyEndsWith url "/" then url.data.dropLast else url.data) ++ '/' ::
    (if pyStartsWith path "/" then path.data.drop 1 else path.data))

/-- Model of `yarl.URL(p).parent.human_repr()`: drop the last path segment
(a trailing empty segment counts as a segment). -/
def yarlParentStr (p : String) : String :=
  let q := upToLastSlash p
  if pyEndsWith q "/" then String.mk q.data.dropLast else q

/-- Model of the cycle guard `parsed_parent.parent == url` (src/odsfzf.py
line 89), where `url` is the relative URL of the current call: yarl equality
compares all components, so an absolute parent (with host) never equals a
host-less URL. -/
def parent_guard (p u : String) : Bool :=
  if hasHost p && !hasHost u then false else yarlParentStr p == u

/- ## Records produced by the crawler -/

/-- Attribute record returned by the external name parser (anitopy); the
fields are the contract fields the source reads, `none` meaning the key is
absent from the returned mapping. -/
structure Attrs where
  file_name : String
  anime_title : Option String := none
  episode_number : Option String := none
  anime_season : Option String := none
  video_resolution : Option String := none
  file_extension : Option String := none
deriving Inhabited

/-- A record yielded by `iterate_file_system`: either a leaf file dict
(`type: file`) or a subtitle bundle dict (`type: subtitle`). -/
inductive FsRecord where
  | file (attrs : Attrs) (origin url path : String)
  | subtitle (subtitle_for : String) (subtitles : List FsRecord)

/- ## The crawler `iterate_file_system` (src/odsfzf.py lines 75-126)

The environment `env` maps a fetched URL to the ordered list of hrefs that
URL_SCANNER_RE extracts from its index page (the regex takes the text between
`href="` and the following `">`, so an href is a directory exactly when it
ends with `/`).  `parse` is the external `anitopy.parse`.  `fuel` bounds the
recursion depth, mirroring the Python recursion limit; running out of fuel is
the RecursionError analogue. -/

/-- Whether the current relative URL path ends in a recognised subtitle-folder
name (src/odsfzf.py line 82). -/
def subsPathCheck (u : String) : Bool :=
  pyEndsWith (relPath u) "Subs/" || pyEndsWith (relPath u) "Sub/"

/-- Processing of one extracted href inside the page loop (src/odsfzf.py
lines 99-126): skip navigation links, recurse into directories (wrapping the
results in a single SubtitleBundle when the current directory is a subtitle
path, keyed by the piece of the parent URL after its final slash), and emit a
FileRecord for leaf files. -/
def handleChild (recurse : String → Option String → Except String (List FsRecord))
    (parse : String → Attrs) (is_subtitle_path : Bool) (url : String)
    (parent : Option String) (href : String) : Except String (List FsRecord) :=
  if relative_to_current_url_match href then .ok []
  else if pyEndsWith href "/" then
    if is_subtitle_path then
      (recurse href (some url)).map (fun subs =>
        [FsRecord.subtitle (match parent with | some p => afterLastSlash p | none => "") subs])
    else recurse href (some url)
  else
    .ok [FsRecord.file (parse href) href (urlJoin url href) (urlPath (urlJoin url href))]

/-- Sequential processing of the extracted hrefs of one page, accumulating
the yielded records; an error from a child generator propagates. -/
def pageLoop (handle : String → Except String (List FsRecord)) :
    List String → List FsRecord → Except String (List FsRecord)
  | [], acc => .ok acc
  | h :: t, acc =>
    match handle h with
    | .error e => .error e
    | .ok recs => pageLoop handle t (acc ++ recs)

/-- Model of `iterate_file_system` (src/odsfzf.py lines 75-126).  For a
host-less URL the subtitle-path flag is computed, a missing parent raises
`ValueError`, the cycle guard may end the branch with zero records, and the
URL is resolved against the parent with `safe_url_join`; then the page at the
resolved URL is fetched and each extracted href is handled in order. -/
def iterate_file_system (env : String → List String) (parse : String → Attrs) :
    Nat → String → Option String → Except String (List FsRecord)
  | 0, _, _ => .error "maximum recursion depth exceeded"
  | fuel + 1, url0, parent =>
    if hasHost url0 then
      pageLoop (handleChild (iterate_file_system env parse fuel) parse false url0 parent)
        (env url0) []
    else
      let is_subtitle_path := subsPathCheck url0
      match parent with
      | none => .error "parent is required for relative URLs"
      | some p =>
        if parent_guard p url0 then .ok []
        else
          let url := safe_url_join p url0
          pageLoop (handleChild (iterate_file_system env parse fuel) parse is_subtitle_path url
            (some p)) (env url) []

/- ## The aggregator of `send_fs_to_fzf` (src/odsfzf.py lines 130-232) -/

/-- A file dict after the aggregator has set its `name` key
(`file["name"] = name`, src/odsfzf.py line 190). -/
structure NamedFile where
  attrs : Attrs
  origin : String
  url : String
  path : String
  name : String

/-- The two grouping dictionaries owned by `send_fs_to_fzf`: both are
`defaultdict(list)`, modelled as insertion-ordered association lists. -/
structure AggState where
  subtitle_holder : List (String × List FsRecord)
  resolution_holder : List (String × List NamedFile)

/-- Lookup in an association list (Python `dict.get` / `in`). -/
def alookup {β : Type} : List (String × β) → String → Option β
  | [], _ => none
  | (k, v) :: t, key => if k = key then some v else alookup t key

/-- Python `holder[key].append(v)` on a `defaultdict(list)`: append to the
existing entry, or insert a fresh singleton entry at the end. -/
def assocAppend {β : Type} : List (String × List β) → String → β → List (String × List β)
  | [], key, v => [(key, [v])]
  | (k, vs) :: t, key, v =>
    if k = key then (k, vs ++ [v]) :: t else (k, vs) :: assocAppend t key v

/-- The name/season/episode computation of `to_fzf_prompt` (src/odsfzf.py
lines 152-177): choose `anime_title` if present else `file_name`, URL-decode,
run `get_season_listing_from_name`, then let an externally supplied
`episode_number` / `anime_season` take precedence over the pattern-derived
values; the name is replaced by the pattern-stripped `pseudo_name` only in
the `else` branches, i.e. only when the corresponding attribute is absent.
Returns (name, pseudo_season, pseudo_episode). -/
def to_fzf_name (a : Attrs) : String × Option PyFloat × Option PyFloat :=
  let name0 := unquote (a.anime_title.getD a.file_name)
  let t := get_season_listing_from_name name0
  let pseudo_name := t.1
  let pe := match a.episode_number with
    | some e => some (parseDecimal e)
    | none => t.2.2.map parseDecimal
  let name1 := match a.episode_number with
    | some _ => name0
    | none => pseudo_name
  let ps := match a.anime_season with
    | some sn => some (parseDecimal sn)
    | none => t.2.1.map parseDecimal
  let name2 := match a.anime_season with
    | some _ => name1
    | none => pseudo_name
  (name2, ps, pe)

/-- The season/episode suffix (src/odsfzf.py lines 179-188): `EE` when only an
episode is present, `SSx0?` when only a season is present, `SSxEE` when both
are. -/
def season_listing_string (pseudo_episode pseudo_season : Option PyFloat) : Option String :=
  match pseudo_episode, pseudo_season with
  | none, none => none
  | some e, none => some (get_pseudo_float_string e)
  | none, some s => some (get_pseudo_float_string s ++ "x0?")
  | some e, some s => some (get_pseudo_float_string s ++ "x" ++ get_pseudo_float_string e)

/-- Python `name.replace(".", " ")`: the pattern is a single character, so
the replacement is a character-wise map. -/
def replaceDotBySpace (s : String) : String :=
  String.mk (s.data.map (fun c => if c = '.' then ' ' else c))

/-- The final canonical display name (src/odsfzf.py lines 190-192):
`" ".join((name.strip(". ").replace(".", " "), season_listing or "")).strip(". ")`. -/
def final_name (a : Attrs) : String :=
  let t := to_fzf_name a
  let listing := season_listing_string t.2.2 t.2.1
  pyStripDotSpace ((replaceDotBySpace (pyStripDotSpace t.1)) ++ " " ++ listing.getD "")

/-- A single quote character, used by Python `repr` on the plain paths
occurring here. -/
def pySQuote : String := String.mk [Char.ofNat 39]

/-- The emitted display label (src/odsfzf.py lines 202-210): name, optional
`[subtitles]` marker, optional `[extension]` marker, optional quoted path
suffix (a file dict always carries a `path` key). -/
def make_label (show_path : Bool) (has_subtitles : Nat) (a : Attrs) (path name : String) :
    String :=
  name ++ (if has_subtitles ≠ 0 then " [subtitles]" else "")
    ++ (match a.file_extension with | some e => " [" ++ e ++ "]" | none => "")
    ++ (if show_path then " @ " ++ pySQuote ++ path ++ pySQuote else "")

/-- One step of the `to_fzf_prompt` generator loop (src/odsfzf.py
lines 136-212).  A subtitle record is appended under its `subtitle_for` key
and nothing is emitted.  For a file record, the source evaluates
`len(subtitle_holder.get("origin", {}).get("attrs", {}).get("subtitles", []))`
with the literal key `"origin"`: when that key is absent the chain runs on the
default `{}` and yields length 0; when it is present the value is a `list`,
which has no `.get`, so the program raises AttributeError.  Then the canonical
name is computed, the record is appended to `resolution_holder[name]` if it
carries a `video_resolution`, and a `(label, file)` pair is emitted unless the
name was already a key of `resolution_holder` before the append. -/
def aggStep (show_path : Bool) (st : AggState) (r : FsRecord) :
    Except String (AggState × List (String × NamedFile)) :=
  match r with
  | .subtitle subtitle_for _ =>
    .ok ({ st with subtitle_holder := assocAppend st.subtitle_holder subtitle_for r }, [])
  | .file attrs origin url path =>
    match alookup st.subtitle_holder "origin" with
    | some _ => .error "AttributeError: list object has no attribute get"
    | none =>
      let has_subtitles := (([] : List FsRecord)).length
      let name := final_name attrs
      let nf : NamedFile := ⟨attrs, origin, url, path, name⟩
      let was_already_in := (alookup st.resolution_holder name).isSome
      let st' : AggState :=
        { st with resolution_holder :=
            if attrs.video_resolution.isSome then assocAppend st.resolution_holder name nf
            else st.resolution_holder }
      if was_already_in then .ok (st', [])
      else .ok (st', [(make_label show_path has_subtitles attrs path name, nf)])

/-- The generator loop of `to_fzf_prompt`, threading the two holders through
the stream and collecting the emitted `(label, file)` pairs in order. -/
def to_fzf_loop (show_path : Bool) (st : AggState) :
    List FsRecord → Except String (List (String × NamedFile) × AggState)
  | [] => .ok ([], st)
  | r :: rest =>
    match aggStep show_path st r with
    | .error e => .error e
    | .ok (st', em) =>
      match to_fzf_loop show_path st' rest with
      | .error e => .error e
      | .ok (out, fin) => .ok (em ++ out, fin)

/-- The aggregation pass over the whole crawler stream, starting from the two
empty holders.  The fzf picker drains the generator completely before a
selection is made, so the final holders are those after the full stream. -/
def to_fzf_prompt (show_path : Bool) (stream : List FsRecord) :
    Except String (List (String × NamedFile) × AggState) :=
  to_fzf_loop show_path ⟨[], []⟩ stream

/-- Post-selection resolution (src/odsfzf.py lines 224-232): collect the
variants grouped under the chosen name (falling back to the chosen record
alone), look up subtitles under the raw `origin` href of the chosen record, and
when any are found attach the list to every variant.  Each returned pair is a
variant together with the subtitle records attached to it. -/
def resolve_selection (st : AggState) (file_ref : NamedFile) :
    List (NamedFile × List FsRecord) :=
  let resolutions := (alookup st.resolution_holder file_ref.name).getD [file_ref]
  let subtitles := (alookup st.subtitle_holder file_ref.origin).getD []
  if subtitles.isEmpty then resolutions.map (fun nf => (nf, []))
  else resolutions.map (fun nf => (nf, subtitles))

/- ## Spec-side definition for the refinement comparison of claim C9 -/

/-- Following the spec words for `subtitleForPath`: the "path segment of the
parent directory this bundle subtitles", i.e. the last non-empty segment of
the path of the parent URL.  This is the spec-side reading, to be compared with
the `afterLastSlash` computation the source performs. -/
def specLastPathSegment (u : String) : String :=
  String.mk (((listSplit ['/'] (urlPath u).data).filter (fun seg => seg ≠ [])).getLastD [])

/- ## Stream predicates and concrete scenarios used by the verification -/

/-- Whether a record is a subtitle bundle. -/
def isSubtitleRec : FsRecord → Bool
  | .subtitle _ _ => true
  | .file _ _ _ _ => false

/-- A file record carrying a `video_resolution` attribute (subtitle records
vacuously pass). -/
def fileHasResolution : FsRecord → Bool
  | .file a _ _ _ => a.video_resolution.isSome
  | .subtitle _ _ => true

/-- A subtitle record whose key is not the literal string `origin` (file
records vacuously pass); streams satisfying this never trigger the
AttributeError path of the aggregator. -/
def subtitleKeyNotOrigin : FsRecord → Bool
  | .file _ _ _ _ => true
  | .subtitle k _ => k != "origin"

/-- Whether `pat` occurs as a contiguous substring of `s`. -/
def containsSubstring (s pat : String) : Bool :=
  (List.range (s.data.length + 1)).any (fun i => pat.data.isPrefixOf (s.data.drop i))

/-- Attribute records a name parser satisfying the spec contract returns for
the three leaf names of the end-to-end scenarios (everything else maps to a
bare file name). -/
def demoParse (href : String) : Attrs :=
  if href = "S01E01.1080p.mkv" then
    ⟨"S01E01.1080p.mkv", some "Show", some "1", some "1", some "1080p", some "mkv"⟩
  else if href = "S01E01.720p.mkv" then
    ⟨"S01E01.720p.mkv", some "Show", some "1", some "1", some "720p", some "mkv"⟩
  else if href = "eng.srt" then
    ⟨"eng.srt", none, none, none, none, some "srt"⟩
  else ⟨href, none, none, none, none, none⟩

/-- The two-level tree of the end-to-end scenario of claim C3: the root lists
`Show/`; `Show/` lists `Subs/` (holding the single file `eng.srt`) and the
two resolution variants of S01E01. -/
def c3Env (u : String) : List String :=
  if u = "http://h/" then ["Show/"]
  else if u = "http://h/Show/" then ["Subs/", "S01E01.1080p.mkv", "S01E01.720p.mkv"]
  else if u = "http://h/Show/Subs/" then ["eng.srt"]
  else []

/-- The record stream the crawler produces on `c3Env` (established by
`c3_code_eval`): three plain file records and no subtitle bundle. -/
def c3Stream : List FsRecord :=
  [FsRecord.file (demoParse "eng.srt") "eng.srt"
      "http://h/Show/Subs/eng.srt" "/Show/Subs/eng.srt",
   FsRecord.file (demoParse "S01E01.1080p.mkv") "S01E01.1080p.mkv"
      "http://h/Show/S01E01.1080p.mkv" "/Show/S01E01.1080p.mkv",
   FsRecord.file (demoParse "S01E01.720p.mkv") "S01E01.720p.mkv"
      "http://h/Show/S01E01.720p.mkv" "/Show/S01E01.720p.mkv"]

/-- The emitted file the picker would select for the grouped S01E01 entry of
the C3 scenario. -/
def c3Selected : NamedFile :=
  ⟨demoParse "S01E01.1080p.mkv", "S01E01.1080p.mkv",
    "http://h/Show/S01E01.1080p.mkv", "/Show/S01E01.1080p.mkv", "Show 01x01"⟩

/-- The tree of claim C4: `Show/` lists the media file first and `Subs/`
second, and `Subs/` holds a child directory `EngSubs/` containing `eng.srt`,
so the crawler yields a SubtitleBundle after the FileRecord. -/
def c4Env (u : String) : List String :=
  if u = "http://h/" then ["Show/"]
  else if u = "http://h/Show/" then ["S01E01.1080p.mkv", "Subs/"]
  else if u = "http://h/Show/Subs/" then ["EngSubs/"]
  else if u = "http://h/Show/Subs/EngSubs/" then ["eng.srt"]
  else []

/-- The record stream the crawler produces on `c4Env` (established by
`c4_code_eval`): the media file, then one bundle keyed by the empty string
and holding one subtitle file record. -/
def c4Stream : List FsRecord :=
  [FsRecord.file (demoParse "S01E01.1080p.mkv") "S01E01.1080p.mkv"
      "http://h/Show/S01E01.1080p.mkv" "/Show/S01E01.1080p.mkv",
   FsRecord.subtitle ""
     [FsRecord.file (demoParse "eng.srt") "eng.srt"
        "http://h/Show/Subs/EngSubs/eng.srt" "/Show/Subs/EngSubs/eng.srt"]]

/-- The emitted file the picker would select in the C4 scenario. -/
def c4Selected : NamedFile :=
  ⟨demoParse "S01E01.1080p.mkv", "S01E01.1080p.mkv",
    "http://h/Show/S01E01.1080p.mkv", "/Show/S01E01.1080p.mkv", "Show 01x01"⟩

/-- The tree of the C9 counterexample: `Show/` holds `Subs/`, and `Subs/`
holds a child directory `Fonts/` with no children, so the crawl of `Subs/`
yields one SubtitleBundle. -/
def c9Env (u : String) : List String :=
  if u = "http://h/" then ["Show/"]
  else if u = "http://h/Show/" then ["Subs/"]
  else if u = "http://h/Show/Subs/" then ["Fonts/"]
  else []

/-- Attribute record of the two same-name, resolution-less files of the C1
counterexample. -/
def c1Attrs : Attrs := ⟨"Show.mkv", none, none, none, none, none⟩

/-- The C1 counterexample stream: two file records whose canonical key
coincides and which both lack a `video_resolution` attribute. -/
def c1Stream : List FsRecord :=
  [FsRecord.file c1Attrs "o1" "http://h/a/o1" "/a/o1",
   FsRecord.file c1Attrs "o2" "http://h/a/o2" "/a/o2"]

/-- First file of the C5 witness pair (1080p). -/
def c5AttrsA : Attrs := ⟨"f1", some "Show", some "2", some "1", some "1080p", some "mkv"⟩

/-- Second file of the C5 witness pair (720p, same canonical key). -/
def c5AttrsB : Attrs := ⟨"f2", some "Show", some "2", some "1", some "720p", some "mkv"⟩

/-- The C1 witness stream: two same-key records that both carry a resolution,
plus a subtitle bundle under a harmless key. -/
def c1WitnessStream : List FsRecord :=
  [FsRecord.file c5AttrsA "o1" "u1" "p1",
   FsRecord.subtitle "Show" [],
   FsRecord.file c5AttrsB "o2" "u2" "p2"]

/-- Attribute record of the C8 counterexample: the raw name embeds `S01E02`,
and the external attributes supply both an episode number and a season
number. -/
def c8Attrs : Attrs := ⟨"Show.S01E02.mkv", none, some "5", some "2", none, none⟩

/- ## Helper lemmas -/

theorem relMatchAfterDot_iff (l : List Char) :
    relMatchAfterDot l = true ↔ ∃ k rest, l = List.replicate k '.' ++ '/' :: rest := by
  induction l with
  | nil =>
    constructor
    · intro h; simp [relMatchAfterDot] at h
    · rintro ⟨k, rest, hk⟩
      cases k <;> simp [List.replicate_succ] at hk
  | cons c t ih =>
    by_cases hc : c = '/'
    · subst hc
      have h1 : relMatchAfterDot ('/' :: t) = true := rfl
      rw [h1]
      constructor
      · intro _
        exact ⟨0, t, by simp⟩
      · intro _
        rfl
    · by_cases hd : c = '.'
      · subst hd
        have h1 : relMatchAfterDot ('.' :: t) = relMatchAfterDot t := rfl
        rw [h1, ih]
        constructor
        · rintro ⟨k, rest, hk⟩
          exact ⟨k + 1, rest, by simp [List.replicate_succ, hk]⟩
        · rintro ⟨k, rest, hk⟩
          cases k with
          | zero => simp at hk
          | succ j =>
            rw [List.replicate_succ] at hk
            simp only [List.cons_append, List.cons.injEq] at hk
            exact ⟨j, rest, hk.2⟩
      · have h1 : relMatchAfterDot (c :: t) = false := by
          simp only [relMatchAfterDot]
          rw [if_neg hc, if_neg hd]
        rw [h1]
        constructor
        · intro h; cases h
        · rintro ⟨k, rest, hk⟩
          exfalso
          cases k with
          | zero =>
            simp only [List.replicate_zero, List.nil_append, List.cons.injEq] at hk
            exact hc hk.1
          | succ j =>
            rw [List.replicate_succ] at hk
            simp only [List.cons_append, List.cons.injEq] at hk
            exact hd hk.1

theorem relMatchList_iff (l : List Char) :
    relMatchList l = true ↔ ∃ k rest, 1 ≤ k ∧ l = List.replicate k '.' ++ '/' :: rest := by
  cases l with
  | nil =>
    constructor
    · intro h; simp [relMatchList] at h
    · rintro ⟨k, rest, hk, h⟩
      cases k with
      | zero => omega
      | succ j => rw [List.replicate_succ] at h; simp at h
  | cons c t =>
    by_cases hd : c = '.'
    · subst hd
      have h1 : relMatchList ('.' :: t) = relMatchAfterDot t := rfl
      rw [h1, relMatchAfterDot_iff]
      constructor
      · rintro ⟨k, rest, hk⟩
        exact ⟨k + 1, rest, by omega, by simp [List.replicate_succ, hk]⟩
      · rintro ⟨k, rest, h1, hk⟩
        cases k with
        | zero => omega
        | succ j =>
          rw [List.replicate_succ] at hk
          simp only [List.cons_append, List.cons.injEq] at hk
          exact ⟨j, rest, hk.2⟩
    · have h1 : relMatchList (c :: t) = false := by
        simp only [relMatchList]
        rw [if_neg hd]
      rw [h1]
      constructor
      · intro h; cases h
      · rintro ⟨k, rest, h1, hk⟩
        exfalso
        cases k with
        | zero => omega
        | succ j =>
          rw [List.replicate_succ] at hk
          simp only [List.cons_append, List.cons.injEq] at hk
          exact hd hk.1

theorem relative_match_iff (s : String) :
    relative_to_current_url_match s = true ↔
      ∃ k rest, 1 ≤ k ∧ s.data = List.replicate k '.' ++ '/' :: rest := by
  unfold relative_to_current_url_match
  exact relMatchList_iff s.data

theorem handleChild_skipped (recurse : String → Option String → Except String (List FsRecord))
    (parse : String → Attrs) (is_sub : Bool) (url : String) (parent : Option String)
    (href : String) (h : relative_to_current_url_match href = true) :
    handleChild recurse parse is_sub url parent href = .ok [] := by
  simp [handleChild, h]

theorem dotBlocks_cons (b : Nat) (t : List Nat) :
    dotBlocks (b :: t) = List.replicate b '.' ++ '/' :: dotBlocks t := by
  simp [dotBlocks]

theorem pageLoop_ne_error (handle : String → Except String (List FsRecord)) (m : String)
    (hm : ∀ h, handle h ≠ .error m) :
    ∀ (l : List String) (acc : List FsRecord), pageLoop handle l acc ≠ .error m := by
  intro l
  induction l with
  | nil => intro acc h; simp [pageLoop] at h
  | cons x t ih =>
    intro acc
    simp only [pageLoop]
    cases hx : handle x with
    | error e =>
      intro hcon
      injection hcon with he
      exact hm x (by rw [hx, he])
    | ok recs => exact ih (acc ++ recs)

theorem handleChild_ne_error (recurse : String → Option String → Except String (List FsRecord))
    (parse : String → Attrs) (is_sub : Bool) (url : String) (parent : Option String)
    (href : String) (m : String) (hrec : ∀ u p', recurse u (some p') ≠ .error m) :
    handleChild recurse parse is_sub url parent href ≠ .error m := by
  unfold handleChild
  split
  · simp
  · split
    · split
      · cases hr : recurse href (some url) with
        | error e =>
          simp only [hr, Except.map]
          intro hcon
          injection hcon with he
          exact hrec href url (by rw [hr, he])
        | ok l => simp [hr, Except.map]
      · exact hrec href url
    · simp

theorem iterate_some_ne_parent_error (env : String → List String) (parse : String → Attrs) :
    ∀ (fuel : Nat) (url p : String),
      iterate_file_system env parse fuel url (some p) ≠
        .error "parent is required for relative URLs" := by
  intro fuel
  induction fuel with
  | zero =>
    intro url p h
    simp [iterate_file_system] at h
  | succ n ih =>
    intro url p
    simp only [iterate_file_system]
    split
    · exact pageLoop_ne_error _ _
        (fun h => handleChild_ne_error _ _ _ _ _ _ _ (fun u p' => ih u p')) _ _
    · split
      · simp
      · exact pageLoop_ne_error _ _
          (fun h => handleChild_ne_error _ _ _ _ _ _ _ (fun u p' => ih u p')) _ _

theorem alookup_assocAppend_self {β : Type} (m : List (String × List β)) (k : String) (v : β) :
    alookup (assocAppend m k v) k = some ((alookup m k).getD [] ++ [v]) := by
  induction m with
  | nil => simp [assocAppend, alookup]
  | cons hd t ih =>
    obtain ⟨k', vs⟩ := hd
    by_cases hk : k' = k
    · subst hk
      simp [assocAppend, alookup]
    · simp [assocAppend, alookup, hk, ih]

theorem alookup_assocAppend_ne {β : Type} (m : List (String × List β)) (k key : String)
    (v : β) (h : k ≠ key) : alookup (assocAppend m k v) key = alookup m key := by
  induction m with
  | nil => simp [assocAppend, alookup, h]
  | cons hd t ih =>
    obtain ⟨k', vs⟩ := hd
    by_cases hk : k' = k
    · subst hk
      simp [assocAppend, alookup, h]
    · by_cases hk2 : k' = key
      · subst hk2
        simp [assocAppend, alookup, hk]
      · simp [assocAppend, alookup, hk, hk2, ih]

theorem alookup_assocAppend_isSome {β : Type} (m : List (String × List β)) (k key : String)
    (v : β) (h : (alookup m key).isSome) : (alookup (assocAppend m k v) key).isSome := by
  by_cases hk : k = key
  · subst hk
    simp [alookup_assocAppend_self]
  · rw [alookup_assocAppend_ne m k key v hk]
    exact h

theorem to_fzf_loop_nodup (sp : Bool) :
    ∀ (stream : List FsRecord) (st : AggState),
      (∀ r ∈ stream, fileHasResolution r = true) →
      (∀ r ∈ stream, subtitleKeyNotOrigin r = true) →
      alookup st.subtitle_holder "origin" = none →
      ∃ out fin, to_fzf_loop sp st stream = .ok (out, fin) ∧
        (out.map (fun e => e.2.name)).Nodup ∧
        (∀ n ∈ out.map (fun e => e.2.name), alookup st.resolution_holder n = none) ∧
        (∀ n, (alookup st.resolution_holder n).isSome →
          (alookup fin.resolution_holder n).isSome) := by
  intro stream
  induction stream with
  | nil =>
    intro st _ _ _
    exact ⟨[], st, rfl, by simp, by simp, fun n h => h⟩
  | cons r rest ih =>
    intro st hres hsub horigin
    have hres' : ∀ x ∈ rest, fileHasResolution x = true :=
      fun x hx => hres x (List.mem_cons_of_mem r hx)
    have hsub' : ∀ x ∈ rest, subtitleKeyNotOrigin x = true :=
      fun x hx => hsub x (List.mem_cons_of_mem r hx)
    cases r with
    | subtitle k subs =>
      have hk : k ≠ "origin" := by
        have h0 := hsub _ (List.mem_cons_self _ _)
        simp [subtitleKeyNotOrigin] at h0
        exact h0
      have hstep : aggStep sp st (FsRecord.subtitle k subs) =
          .ok (⟨assocAppend st.subtitle_holder k (FsRecord.subtitle k subs),
            st.resolution_holder⟩, []) := rfl
      have horigin' : alookup (assocAppend st.subtitle_holder k (FsRecord.subtitle k subs))
          "origin" = none := by
        rw [alookup_assocAppend_ne _ _ _ _ hk]
        exact horigin
      obtain ⟨out, fin, heq, hnd, hfresh, hmono⟩ :=
        ih ⟨assocAppend st.subtitle_holder k (FsRecord.subtitle k subs),
          st.resolution_holder⟩ hres' hsub' horigin'
      refine ⟨out, fin, ?_, hnd, hfresh, hmono⟩
      simp [to_fzf_loop, hstep, heq]
    | file a o u p =>
      have ha : a.video_resolution.isSome = true := by
        have h0 := hres _ (List.mem_cons_self _ _)
        simpa [fileHasResolution] using h0
      by_cases hwas : (alookup st.resolution_holder (final_name a)).isSome
      · have hstep : aggStep sp st (FsRecord.file a o u p) =
            .ok (⟨st.subtitle_holder,
              assocAppend st.resolution_holder (final_name a) ⟨a, o, u, p, final_name a⟩⟩,
              []) := by
          simp [aggStep, horigin, ha, hwas]
        obtain ⟨out, fin, heq, hnd, hfresh, hmono⟩ :=
          ih ⟨st.subtitle_holder,
            assocAppend st.resolution_holder (final_name a) ⟨a, o, u, p, final_name a⟩⟩
            hres' hsub' horigin
        refine ⟨out, fin, ?_, hnd, ?_, ?_⟩
        · simp [to_fzf_loop, hstep, heq]
        · intro n hn
          have h1 := hfresh n hn
          by_cases hnn : final_name a = n
          · exfalso
            rw [← hnn] at h1
            simp only [alookup_assocAppend_self] at h1
            cases h1
          · rwa [alookup_assocAppend_ne _ _ _ _ hnn] at h1
        · intro n hsome
          exact hmono n (alookup_assocAppend_isSome _ _ _ _ hsome)
      · have hstep : aggStep sp st (FsRecord.file a o u p) =
            .ok (⟨st.subtitle_holder,
              assocAppend st.resolution_holder (final_name a) ⟨a, o, u, p, final_name a⟩⟩,
              [(make_label sp 0 a p (final_name a), ⟨a, o, u, p, final_name a⟩)]) := by
          simp [aggStep, horigin, ha, hwas]
        obtain ⟨out, fin, heq, hnd, hfresh, hmono⟩ :=
          ih ⟨st.subtitle_holder,
            assocAppend st.resolution_holder (final_name a) ⟨a, o, u, p, final_name a⟩⟩
            hres' hsub' horigin
        have hnotmem : final_name a ∉ out.map (fun e => e.2.name) := by
          intro hmem
          have h1 := hfresh _ hmem
          simp only [alookup_assocAppend_self] at h1
          cases h1
        refine ⟨(make_label sp 0 a p (final_name a), ⟨a, o, u, p, final_name a⟩) :: out,
          fin, ?_, ?_, ?_, ?_⟩
        · simp [to_fzf_loop, hstep, heq]
        · rw [List.map_cons, List.nodup_cons]
          exact ⟨hnotmem, hnd⟩
        · intro n hn
          simp only [List.map_cons, List.mem_cons] at hn
          rcases hn with hn | hn
          · subst hn
            simpa using hwas
          · have h1 := hfresh n hn
            by_cases hnn : final_name a = n
            · exfalso
              rw [← hnn] at h1
              simp only [alookup_assocAppend_self] at h1
              cases h1
            · rwa [alookup_assocAppend_ne _ _ _ _ hnn] at h1
        · intro n hsome
          exact hmono n (alookup_assocAppend_isSome _ _ _ _ hsome)

/- ## Claim theorems -/

/-- C2 counterexample: the source formats the non-integer 5.5 with `%02.0f`,
which rounds half to even to 6 and renders `"06"`, not the truncated `"05"`
the claim states. -/
theorem c2_counterexample :
    get_pseudo_float_string (parseDecimal "5.5") = "06" ∧
    get_pseudo_float_string (parseDecimal "5.5") ≠ "05" := by
  constructor
  · rfl
  · decide

/-- C2 (amended): the pseudo-float formatter renders the whole number 5 as
the two-digit zero-padded `"05"`; a non-integer value is rendered with
`%02.0f`, rounding half to even, so 5.5 renders as `"06"`; and a season-only
input with season 1 yields the suffix `"01x0?"`. -/
theorem c2_amended_formatting :
    get_pseudo_float_string (parseDecimal "5") = "05" ∧
    get_pseudo_float_string (parseDecimal "5.5") = "06" ∧
    season_listing_string none (some (parseDecimal "1")) = some "01x0?" := by
  refine ⟨rfl, rfl, rfl⟩

/-- C6: an href composed entirely of parent/self dot-segments (one or more
blocks of dots each closed by a slash) is matched by
RELATIVE_TO_CURRENT_URL_RE, and the child handler of the crawler returns no
records for it under every recursion function — the link is neither followed
nor emitted. -/
theorem c6_parent_link_filtering (h : String) (hd : entirelyDotSegments h) :
    relative_to_current_url_match h = true ∧
    ∀ (recurse : String → Option String → Except String (List FsRecord))
      (parse : String → Attrs) (is_sub : Bool) (url : String) (parent : Option String),
      handleChild recurse parse is_sub url parent h = .ok [] := by
  obtain ⟨blocks, hne, hge, heq⟩ := hd
  have hmatch : relative_to_current_url_match h = true := by
    cases blocks with
    | nil => exact absurd rfl hne
    | cons b t =>
      rw [relative_match_iff]
      exact ⟨b, dotBlocks t, hge b (List.mem_cons_self _ _), by rw [heq, dotBlocks_cons]⟩
  exact ⟨hmatch, fun recurse parse is_sub url parent =>
    handleChild_skipped recurse parse is_sub url parent h hmatch⟩

/-- C6 witness: the href `../` is entirely dot-segments, is matched, and the
handler drops it even under a recursion function that would emit a marker
record if it were ever followed. -/
theorem c6_witness :
    relative_to_current_url_match "../" = true ∧
    handleChild (fun _ _ => Except.ok [FsRecord.file c1Attrs "marker" "m" "m"])
      demoParse false "http://h/" none "../" = Except.ok [] :=
  ⟨(c6_parent_link_filtering "../" ⟨[2], by simp, by simp, by decide⟩).1,
   (c6_parent_link_filtering "../" ⟨[2], by simp, by simp, by decide⟩).2 _ _ _ _ _⟩

/-- C7: calling the crawler on a URL without a host component and without a
parent fails with the InvalidArgument error (`ValueError: parent is required
for relative URLs`), and no call made with a parent supplied ever produces
that error. -/
theorem c7_invalid_argument (env : String → List String) (parse : String → Attrs)
    (fuel : Nat) (url : String) (h : hasHost url = false) :
    iterate_file_system env parse (fuel + 1) url none =
      .error "parent is required for relative URLs" ∧
    ∀ (p : String) (fuel2 : Nat),
      iterate_file_system env parse fuel2 url (some p) ≠
        .error "parent is required for relative URLs" := by
  constructor
  · simp [iterate_file_system, h]
  · intro p fuel2
    exact iterate_some_ne_parent_error env parse fuel2 url p

/-- C7 witness: the relative URL `Subs/` with no parent aborts with the
InvalidArgument error, and the same URL with a parent does not produce it. -/
theorem c7_witness :
    iterate_file_system (fun _ => []) demoParse 1 "Subs/" none =
      .error "parent is required for relative URLs" ∧
    iterate_file_system (fun _ => []) demoParse 1 "Subs/" (some "http://h/") ≠
      .error "parent is required for relative URLs" :=
  ⟨(c7_invalid_argument (fun _ => []) demoParse 0 "Subs/" rfl).1,
   (c7_invalid_argument (fun _ => []) demoParse 0 "Subs/" rfl).2 "http://h/" 1⟩

/-- C8 counterexample: for a raw name embedding `S01E02` whose attributes
supply both an external episode number and an external season number, the
matched span is not stripped: the emitted canonical name keeps `S01E02`
(the matcher alone would have stripped it to `Show.mkv`). -/
theorem c8_counterexample :
    final_name c8Attrs = "Show S01E02 mkv 02x05" ∧
    (get_season_listing_from_name "Show.S01E02.mkv").1 = "Show.mkv" ∧
    "S01E02".data <:+: (final_name c8Attrs).data := by
  refine ⟨rfl, rfl, ?_⟩
  decide

/-- C8 (amended): externally supplied episode and season numbers take
precedence over the pattern-derived values; the pattern-derived stripping of
the matched span applies exactly when at least one of the two attributes is
absent, and when both are supplied the raw (unstripped) name is kept. -/
theorem c8_amended_precedence (a : Attrs) :
    (∀ e, a.episode_number = some e → (to_fzf_name a).2.2 = some (parseDecimal e)) ∧
    (∀ sn, a.anime_season = some sn → (to_fzf_name a).2.1 = some (parseDecimal sn)) ∧
    ((a.episode_number = none ∨ a.anime_season = none) →
      (to_fzf_name a).1 =
        (get_season_listing_from_name (unquote (a.anime_title.getD a.file_name))).1) ∧
    (a.episode_number ≠ none → a.anime_season ≠ none →
      (to_fzf_name a).1 = unquote (a.anime_title.getD a.file_name)) := by
  refine ⟨?_, ?_, ?_, ?_⟩ <;>
    cases he : a.episode_number <;> cases hs : a.anime_season <;>
      simp [to_fzf_name, he, hs]

/-- C8 witness: at the concrete record of the counterexample the external
values indeed take precedence and the raw name is kept. -/
theorem c8_witness :
    (to_fzf_name c8Attrs).2.2 = some (parseDecimal "5") ∧
    (to_fzf_name c8Attrs).2.1 = some (parseDecimal "2") ∧
    (to_fzf_name c8Attrs).1 = unquote "Show.S01E02.mkv" :=
  ⟨(c8_amended_precedence c8Attrs).1 "5" rfl,
   (c8_amended_precedence c8Attrs).2.1 "2" rfl,
   (c8_amended_precedence c8Attrs).2.2.2 (by decide) (by decide)⟩

/-- C10: the skip test of the crawler is prefix-based: an href is matched by
RELATIVE_TO_CURRENT_URL_RE exactly when it begins with one or more dots
immediately followed by a slash, and every matched href is dropped whole by
the child handler under every recursion function (never followed, never
emitted). -/
theorem c10_skip_characterization (s : String) :
    (relative_to_current_url_match s = true ↔
      ∃ k rest, 1 ≤ k ∧ s.data = List.replicate k '.' ++ '/' :: rest) ∧
    (relative_to_current_url_match s = true →
      ∀ (recurse : String → Option String → Except String (List FsRecord))
        (parse : String → Attrs) (is_sub : Bool) (url : String) (parent : Option String),
        handleChild recurse parse is_sub url parent s = .ok []) :=
  ⟨relative_match_iff s,
   fun h recurse parse is_sub url parent =>
     handleChild_skipped recurse parse is_sub url parent s h⟩

/-- C10 witness: `./RealChild/` is skipped although it names a genuine child,
`../sibling/file.mkv` is dropped whole even under a recursion function that
would emit a marker, and the bare `..` (no trailing slash) is not matched. -/
theorem c10_witness :
    relative_to_current_url_match "./RealChild/" = true ∧
    handleChild (fun _ _ => Except.ok [FsRecord.file c1Attrs "marker" "m" "m"])
      demoParse true "http://h/" none "../sibling/file.mkv" = Except.ok [] ∧
    relative_to_current_url_match ".." = false :=
  ⟨(c10_skip_characterization "./RealChild/").1.mpr ⟨1, "RealChild/".data, by decide, by decide⟩,
   (c10_skip_characterization "../sibling/file.mkv").2 (by decide) _ _ _ _ _,
   by decide⟩

/-- C1 counterexample: two records with the same canonical key but no
`video_resolution` attribute are both emitted — the key `Show mkv` appears
twice in the emission stream, so a distinct canonical key is not emitted at
most once. -/
theorem c1_counterexample :
    (to_fzf_prompt false c1Stream).map (fun x => x.1.map (fun e => e.2.name)) =
      .ok ["Show mkv", "Show mkv"] ∧
    ¬ (["Show mkv", "Show mkv"] : List String).Nodup := by
  constructor
  · rfl
  · decide

/-- C1 (amended): provided every FileRecord of the stream carries a
`video_resolution` attribute (and no bundle is keyed by the literal string
`origin`, which would crash the aggregator), each distinct canonical key is
emitted at most once: the emitted names are pairwise distinct.  Without the
resolution proviso a key seen only on resolution-less records is re-emitted,
as the counterexample shows. -/
theorem c1_amended_dedup (sp : Bool) (stream : List FsRecord)
    (hres : ∀ r ∈ stream, fileHasResolution r = true)
    (hsub : ∀ r ∈ stream, subtitleKeyNotOrigin r = true) :
    ∃ out fin, to_fzf_prompt sp stream = .ok (out, fin) ∧
      (out.map (fun e => e.2.name)).Nodup := by
  obtain ⟨out, fin, h1, h2, _, _⟩ := to_fzf_loop_nodup sp stream ⟨[], []⟩ hres hsub rfl
  exact ⟨out, fin, h1, h2⟩

/-- C1 witness: a concrete stream of two same-key resolution-carrying records
and one harmless bundle aggregates without error and emits pairwise distinct
names. -/
theorem c1_witness :
    ∃ out fin, to_fzf_prompt false c1WitnessStream = .ok (out, fin) ∧
      (out.map (fun e => e.2.name)).Nodup :=
  c1_amended_dedup false c1WitnessStream (by decide) (by decide)

/-- C5: feeding the aggregator two FileRecords that canonicalise to the same
key, each carrying a (different) resolution attribute, yields exactly one
emitted entry — the pair of the first record — while the variants list under
the key has length two and keeps first-occurrence order. -/
theorem c5_dedup_accumulate (sp : Bool) (a1 a2 : Attrs) (o1 u1 p1 o2 u2 p2 r1 r2 : String)
    (h1 : a1.video_resolution = some r1) (h2 : a2.video_resolution = some r2)
    (_hr : r1 ≠ r2) (hn : final_name a2 = final_name a1) :
    to_fzf_prompt sp [FsRecord.file a1 o1 u1 p1, FsRecord.file a2 o2 u2 p2] =
      .ok ([(make_label sp 0 a1 p1 (final_name a1), ⟨a1, o1, u1, p1, final_name a1⟩)],
        ⟨[], [(final_name a1,
          [⟨a1, o1, u1, p1, final_name a1⟩, ⟨a2, o2, u2, p2, final_name a2⟩])]⟩) := by
  have ha1 : a1.video_resolution.isSome = true := by simp [h1]
  have ha2 : a2.video_resolution.isSome = true := by simp [h2]
  simp [to_fzf_prompt, to_fzf_loop, aggStep, alookup, assocAppend, ha1, ha2, hn]

/-- C5 witness: the 1080p/720p pair of `Show 1x02` records produces one
emission and a two-element variants list in discovery order. -/
theorem c5_witness :
    to_fzf_prompt false
        [FsRecord.file c5AttrsA "o1" "u1" "p1", FsRecord.file c5AttrsB "o2" "u2" "p2"] =
      .ok ([(make_label false 0 c5AttrsA "p1" (final_name c5AttrsA),
          ⟨c5AttrsA, "o1", "u1", "p1", final_name c5AttrsA⟩)],
        ⟨[], [(final_name c5AttrsA,
          [⟨c5AttrsA, "o1", "u1", "p1", final_name c5AttrsA⟩,
           ⟨c5AttrsB, "o2", "u2", "p2", final_name c5AttrsB⟩])]⟩) :=
  c5_dedup_accumulate false c5AttrsA c5AttrsB "o1" "u1" "p1" "o2" "u2" "p2" "1080p" "720p"
    rfl rfl (by decide) (by rfl)

/-- C3 evaluation: on the two-level tree of the end-to-end scenario the
crawler yields three plain file records and no SubtitleBundle (the file
directly inside `Subs/` is flattened into the stream as an ordinary file);
the aggregator emits two entries, neither of whose labels contains
`[subtitles]`; resolving the grouped selection returns two variants, each
carrying an empty subtitles list — not the one-element list the claim
states. -/
theorem c3_code_eval :
    iterate_file_system c3Env demoParse 5 "http://h/" none = .ok c3Stream ∧
    c3Stream.all (fun r => !isSubtitleRec r) = true ∧
    (to_fzf_prompt false c3Stream).map (fun x => x.1.map Prod.fst) =
      .ok ["eng srt [srt]", "Show 01x01 [mkv]"] ∧
    (to_fzf_prompt false c3Stream).map
      (fun x => x.1.all (fun e => !containsSubstring e.1 "[subtitles]")) = .ok true ∧
    (to_fzf_prompt false c3Stream).map
      (fun x => (resolve_selection x.2 c3Selected).map (fun v => (v.1.origin, v.2.length))) =
      .ok [("S01E01.1080p.mkv", 0), ("S01E01.720p.mkv", 0)] := by
  refine ⟨rfl, rfl, rfl, rfl, rfl⟩

/-- C4 evaluation: when the SubtitleBundle for the directory of the file arrives
after the FileRecord, the bundle is stored under the key produced from the
parent URL (the empty string for a trailing-slash parent) while the
selection-time lookup uses the raw href `S01E01.1080p.mkv` of the chosen record;
the keys never meet, so the resolved selection carries no subtitles even
though the stream holds a bundle with one subtitle record. -/
theorem c4_code_eval :
    iterate_file_system c4Env demoParse 6 "http://h/" none = .ok c4Stream ∧
    c4Stream.map isSubtitleRec = [false, true] ∧
    (to_fzf_prompt false c4Stream).map
      (fun x => x.2.subtitle_holder.map (fun kv => (kv.1, kv.2.length))) =
      .ok [("", 1)] ∧
    (to_fzf_prompt false c4Stream).map
      (fun x => (resolve_selection x.2 c4Selected).map (fun v => (v.1.origin, v.2.length))) =
      .ok [("S01E01.1080p.mkv", 0)] := by
  refine ⟨rfl, rfl, rfl, rfl⟩

/-- C9 counterexample: in the crawl of the `Fonts/`-under-`Subs/` tree, the
emitted SubtitleBundle is keyed by the piece of the parent URL after its
final slash — the empty string, because the parent URL `http://h/Show/` ends
in a slash — and not by the last path segment `Show` the claim states. -/
theorem c9_counterexample :
    iterate_file_system c9Env demoParse 5 "http://h/" none =
      .ok [FsRecord.subtitle "" []] ∧
    specLastPathSegment "http://h/Show/" = "Show" ∧
    ("" : String) ≠ "Show" := by
  refine ⟨rfl, rfl, by decide⟩

/-- C9 (amended): when the crawler traverses a directory reached by a
relative URL whose path ends in a recognised subtitle-folder name and
encounters one child directory link, it yields exactly one SubtitleBundle —
instead of flattening — whose `subtitle_for` key is the portion of the
parent URL after its final slash (the last path segment only when the parent
URL lacks a trailing slash, the empty string otherwise) and whose subtitles
list is exactly the list of records found recursively under that child
directory. -/
theorem c9_amended_bundle (env : String → List String) (parse : String → Attrs)
    (fuel : Nat) (p url0 d : String)
    (hh : hasHost url0 = false) (hs : subsPathCheck url0 = true)
    (hg : parent_guard p url0 = false)
    (he : env (safe_url_join p url0) = [d])
    (hm : relative_to_current_url_match d = false)
    (hd : pyEndsWith d "/" = true) :
    iterate_file_system env parse (fuel + 1) url0 (some p) =
      (iterate_file_system env parse fuel d (some (safe_url_join p url0))).map
        (fun subs => [FsRecord.subtitle (afterLastSlash p) subs]) := by
  have h1 : iterate_file_system env parse (fuel + 1) url0 (some p) =
      pageLoop (handleChild (iterate_file_system env parse fuel) parse (subsPathCheck url0)
        (safe_url_join p url0) (some p)) (env (safe_url_join p url0)) [] := by
    simp [iterate_file_system, hh, hg]
  have h2 : handleChild (iterate_file_system env parse fuel) parse (subsPathCheck url0)
      (safe_url_join p url0) (some p) d =
      (iterate_file_system env parse fuel d (some (safe_url_join p url0))).map
        (fun subs => [FsRecord.subtitle (afterLastSlash p) subs]) := by
    simp [handleChild, hm, hd, hs]
  rw [h1, he]
  cases hrec : iterate_file_system env parse fuel d (some (safe_url_join p url0)) with
  | error e => simp [pageLoop, h2, hrec, Except.map]
  | ok l => simp [pageLoop, h2, hrec, Except.map]

/-- C9 witness: the crawl of `Subs/` below `http://h/Show/` with the single
child directory `Fonts/` is exactly one bundle keyed by the portion of the
parent URL after its final slash, wrapping the recursive crawl of the
child. -/
theorem c9_witness :
    iterate_file_system c9Env demoParse 4 "Subs/" (some "http://h/Show/") =
      (iterate_file_system c9Env demoParse 3 "Fonts/"
          (some (safe_url_join "http://h/Show/" "Subs/"))).map
        (fun subs => [FsRecord.subtitle (afterLastSlash "http://h/Show/") subs]) :=
  c9_amended_bundle c9Env demoParse 3 "http://h/Show/" "Subs/" "Fonts/"
    rfl rfl rfl rfl rfl rfl
